import Mathlib

/-!
Shallow embedding of the group-buy coordination engine of the
`leko-mattermost-bot` repository (src/src/database.rs and
src/src/handlers/group_buy/*), together with proofs settling the
specification claims.

Modelling conventions:
* `rust_decimal::Decimal` is modelled by `Rat` (exact arithmetic, no floats).
* SQLite tables are modelled by a record of tables: `group_buys` is keyed by
  its primary key `id` (a `String → Option GroupBuy` map), the other tables
  are row lists.  `Utc::now()` timestamps are threaded as explicit `Nat`
  parameters.
* A SQL transaction is modelled by a pure `Except` computation: on `.ok` the
  whole new state is returned, on `.error` the caller keeps the old state,
  mirroring rollback.
* `serde_json::json!` details strings are modelled by serialising an
  explicit `Json` object; `format!` details strings are built by string
  concatenation, exactly as in the source.
-/

namespace GroupBuyBot

/-- Model of `rust_decimal::Decimal`: an exact rational number. -/
abbrev Money := Rat

/-- Model of `GroupBuyStatus` from src/src/database.rs. -/
inductive GroupBuyStatus where
  | active
  | closed
deriving DecidableEq, Repr

/-- Model of `Display for GroupBuyStatus`: `active` / `closed`. -/
def GroupBuyStatus.toStr : GroupBuyStatus → String
  | .active => "active"
  | .closed => "closed"

/-- The `group_buys` row / `GroupBuy` struct from src/src/database.rs. -/
structure GroupBuy where
  id : String
  creator_id : String
  creator_username : String
  channel_id : String
  post_id : Option String
  merchant_name : String
  description : Option String
  metadata : List (String × String)
  items : List (String × Money)
  status : GroupBuyStatus
  version : Int
  created_at : Nat
  updated_at : Nat
deriving Repr, DecidableEq

/-- The `group_buy_orders` row / `GroupBuyOrder` struct from src/src/database.rs. -/
structure GroupBuyOrder where
  id : String
  group_buy_id : String
  registrar_id : String
  registrar_username : String
  buyer_id : String
  buyer_username : String
  item_name : String
  quantity : Int
  original_quantity : Option Int
  unit_price : Money
  created_at : Nat
deriving Repr, DecidableEq

/-- A `shortage_adjustments` row, inserted by the two adjustment operations. -/
structure ShortageAdjustment where
  group_buy_id : String
  order_id : String
  adjuster_id : String
  adjuster_username : String
  item_name : String
  buyer_id : String
  buyer_username : String
  old_quantity : Int
  new_quantity : Int
  created_at : Nat
deriving Repr, DecidableEq

/-- A `group_buy_logs` (audit) row; `details` is the TEXT column. -/
structure LogEntry where
  group_buy_id : String
  user_id : String
  username : String
  action : String
  details : String
  created_at : Nat
deriving Repr, DecidableEq

/-- Model of `AdjustmentRecord` returned by `Database::adjust_order_quantity`. -/
structure AdjustmentRecord where
  buyer_username : String
  old_quantity : Int
  new_quantity : Int
deriving Repr, DecidableEq

/-- A flat JSON value, rich enough for every `serde_json::json!` details
object the database layer builds (all of them map keys to strings or
integers). -/
inductive JVal where
  | s (v : String)
  | n (v : Int)
deriving Repr, DecidableEq

/-- A JSON document: the top-level values `serde_json` can print. -/
inductive Json where
  | str (v : String)
  | num (v : Int)
  | obj (fields : List (String × JVal))
deriving Repr, DecidableEq

/-- Minified serialisation of a flat JSON value (`serde_json::to_string`). -/
def JVal.serialize : JVal → String
  | .s v => "\"" ++ v ++ "\""
  | .n v => toString v

/-- Minified serialisation of a JSON document (`serde_json::to_string`). -/
def Json.serialize : Json → String
  | .str v => "\"" ++ v ++ "\""
  | .num v => toString v
  | .obj fs =>
      "\x7b" ++ String.intercalate ","
        (fs.map fun kv => "\"" ++ kv.1 ++ "\":" ++ kv.2.serialize) ++ "\x7d"

/-- Does a JSON document contain the given top-level key? -/
def Json.hasKey (j : Json) (k : String) : Bool :=
  match j with
  | .obj fs => fs.any fun kv => kv.1 = k
  | _ => false

/-- Look a key up in a JSON object. -/
def Json.lookup (j : Json) (k : String) : Option JVal :=
  match j with
  | .obj fs => (fs.find? fun kv => kv.1 = k).map (·.2)
  | _ => none

/-- A details string is valid JSON containing a `version` key exactly when it
is the serialisation of a JSON document that has that key. -/
def IsJsonWithVersion (s : String) : Prop :=
  ∃ j : Json, j.serialize = s ∧ j.hasKey "version" = true

/-- Model of `HashMap::get` on an association list. -/
def lookupKey {α : Type} (l : List (String × α)) (k : String) : Option α :=
  (l.find? fun kv => kv.1 = k).map (·.2)

/-- The persistent state: the four SQLite tables owned by the Store. -/
structure DBState where
  sessions : String → Option GroupBuy
  orders : List GroupBuyOrder
  adjustments : List ShortageAdjustment
  logs : List LogEntry

/-- The error kinds the Store operations bail with. -/
inductive DbError where
  | duplicate
  | versionConflict
  | notFound
  | sessionClosed
  | notClosed
deriving Repr, DecidableEq

/-- Model of `Database::log_action`: append one audit row; a `None` details records
an empty JSON object. -/
def logAction (db : DBState) (gbId userId username action : String)
    (details : Option String) (now : Nat) : DBState :=
  let detailsMin := details.getD "\x7b\x7d"
  { db with logs := db.logs ++ [⟨gbId, userId, username, action, detailsMin, now⟩] }

/-- The `details_json` object `create_group_buy` serialises. -/
def createDetailsJson (gb : GroupBuy) : Json :=
  .obj [("merchant_name", .s gb.merchant_name), ("action", .s "create"),
        ("version", .n gb.version)]

/-- The `details_json` object `update_items` serialises. -/
def updateItemsDetailsJson (items : List (String × Money)) (ev : Int) : Json :=
  .obj [("items_count", .n items.length), ("action", .s "update_items"),
        ("version", .n ev)]

/-- The `details_json` object `update_status` serialises. -/
def updateStatusDetailsJson (status : GroupBuyStatus) (ev : Int) : Json :=
  .obj [("new_status", .s status.toStr),
        ("action", .s ("update_status_" ++ status.toStr)),
        ("version", .n ev)]

/-- The `details_json` object `create_order` serialises. -/
def registerDetailsJson (o : GroupBuyOrder) (version : Int) : Json :=
  .obj [("buyer", .s o.buyer_username), ("item", .s o.item_name),
        ("quantity", .n o.quantity), ("action", .s "register"),
        ("version", .n version)]

/-- The `details_json` object `delete_buyer_item_orders` serialises. -/
def deleteRegDetailsJson (buyerId itemName : String) (version : Int) : Json :=
  .obj [("buyer_id", .s buyerId), ("item_name", .s itemName),
        ("action", .s "delete_registration"), ("version", .n version)]

/-- The `details_json` object `delete_orders_for_buyer` serialises. -/
def cancelAllDetailsJson (buyerId : String) (version : Int) : Json :=
  .obj [("buyer_id", .s buyerId), ("action", .s "cancel_all_registrations"),
        ("version", .n version)]

/-- Model of `Database::create_group_buy`: insert the session row (primary-key
uniqueness enforced), then log a `create` entry whose JSON details carry the
version. -/
def createGroupBuy (db : DBState) (gb : GroupBuy) (now : Nat) :
    Except DbError DBState :=
  match db.sessions gb.id with
  | some _ => .error .duplicate
  | none =>
      let db1 : DBState :=
        { db with sessions := fun i => if i = gb.id then some gb else db.sessions i }
      let details := (createDetailsJson gb).serialize
      .ok (logAction db1 gb.id gb.creator_id gb.creator_username "create"
        (some details) now)

/-- Model of `Database::update_items`: conditional
`UPDATE … WHERE id = ? AND version = ? AND status = 'active'`; zero affected
rows bail with a version conflict; on success the `update_items` audit entry
is appended with JSON details carrying the (expected) version. -/
def updateItems (db : DBState) (id : String) (items : List (String × Money))
    (expectedVersion : Int) (userId username : String) (now : Nat) :
    Except DbError DBState :=
  match db.sessions id with
  | none => .error .versionConflict
  | some gb =>
      if gb.version = expectedVersion ∧ gb.status = .active then
        let gb' := { gb with items := items, version := gb.version + 1, updated_at := now }
        let db1 : DBState :=
          { db with sessions := fun i => if i = id then some gb' else db.sessions i }
        let details := (updateItemsDetailsJson items expectedVersion).serialize
        .ok (logAction db1 id userId username "update_items" (some details) now)
      else .error .versionConflict

/-- Model of `Database::update_post_id`: unconditional `UPDATE … WHERE id = ?`
(no version check, no NULL guard); zero affected rows means not found. -/
def updatePostId (db : DBState) (id postId : String) (now : Nat) :
    Except DbError DBState :=
  match db.sessions id with
  | none => .error .notFound
  | some gb =>
      .ok { db with sessions := fun i =>
        if i = id then some { gb with post_id := some postId, updated_at := now }
        else db.sessions i }

/-- Model of `Database::update_status`: conditional `UPDATE … WHERE id = ? AND
version = ?` (no status condition); on success an
`update_status_<status>` audit entry is appended with JSON details. -/
def updateStatus (db : DBState) (id : String) (status : GroupBuyStatus)
    (expectedVersion : Int) (userId username : String) (now : Nat) :
    Except DbError DBState :=
  match db.sessions id with
  | none => .error .versionConflict
  | some gb =>
      if gb.version = expectedVersion then
        let gb' := { gb with status := status, version := gb.version + 1, updated_at := now }
        let db1 : DBState :=
          { db with sessions := fun i => if i = id then some gb' else db.sessions i }
        let details := (updateStatusDetailsJson status expectedVersion).serialize
        .ok (logAction db1 id userId username ("update_status_" ++ status.toStr)
          (some details) now)
      else .error .versionConflict

/-- Model of `Database::create_order`: read the parent session status (`fetch_one`
fails when the session is missing), bail unless `active`, insert the order
row, then read the session version back and append the `register` audit
entry with JSON details. -/
def createOrder (db : DBState) (o : GroupBuyOrder) (now : Nat) :
    Except DbError DBState :=
  match db.sessions o.group_buy_id with
  | none => .error .notFound
  | some gb =>
      if gb.status ≠ .active then .error .sessionClosed
      else
        let db1 : DBState := { db with orders := db.orders ++ [o] }
        let version := gb.version
        let details := (registerDetailsJson o version).serialize
        .ok (logAction db1 o.group_buy_id o.registrar_id o.registrar_username
          "register" (some details) now)

/-- Predicate: an order row matches `(group_buy_id, buyer_id, item_name)`. -/
def matchesBuyerItem (gbId buyerId itemName : String) (o : GroupBuyOrder) : Bool :=
  o.group_buy_id = gbId ∧ o.buyer_id = buyerId ∧ o.item_name = itemName

/-- Model of `Database::delete_buyer_item_orders`: delete every matching row, read
the session version (`unwrap_or(0)`), append a `delete_registration` audit
entry with JSON details, and return the number of deleted rows. -/
def deleteBuyerItemOrders (db : DBState)
    (gbId buyerId itemName actorId actorUsername : String) (now : Nat) :
    DBState × Nat :=
  let remaining := db.orders.filter fun o => ¬ matchesBuyerItem gbId buyerId itemName o
  let removed := db.orders.countP fun o => matchesBuyerItem gbId buyerId itemName o
  let db1 : DBState := { db with orders := remaining }
  let version := ((db.sessions gbId).map (·.version)).getD 0
  let details := (deleteRegDetailsJson buyerId itemName version).serialize
  (logAction db1 gbId actorId actorUsername "delete_registration" (some details) now,
   removed)

/-- Model of `Database::delete_orders_for_buyer`: delete every row of one buyer,
append a `cancel_all_registrations` audit entry with JSON details, return
the number of deleted rows. -/
def deleteOrdersForBuyer (db : DBState)
    (gbId buyerId actorId actorUsername : String) (now : Nat) :
    DBState × Nat :=
  let remaining := db.orders.filter fun o =>
    ¬ (o.group_buy_id = gbId ∧ o.buyer_id = buyerId)
  let removed := db.orders.countP fun o =>
    o.group_buy_id = gbId ∧ o.buyer_id = buyerId
  let db1 : DBState := { db with orders := remaining }
  let version := ((db.sessions gbId).map (·.version)).getD 0
  let details := (cancelAllDetailsJson buyerId version).serialize
  (logAction db1 gbId actorId actorUsername "cancel_all_registrations"
    (some details) now,
   removed)

/-- The plain-text (`format!`) details message `adjust_single_order` logs. -/
def adjustSingleMsg (buyerUsername itemName : String) (oldQty newQty : Int) : String :=
  "調整 @" ++ buyerUsername ++ " 的 " ++ itemName ++ " 數量：" ++
    toString oldQty ++ " → " ++ toString newQty

/-- Model of `Database::adjust_single_order`: inside one transaction — fetch the
order (`fetch_one` fails when missing), check the parent session is
`closed`, update the order quantity setting `original_quantity` from the
current quantity when not yet set, insert one `shortage_adjustments` row,
and insert one `adjust_shortage` audit row whose details is a plain-text
message.  Any failure rolls the whole transaction back (the caller keeps
the old state). -/
def adjustSingleOrder (db : DBState) (orderId : String) (newQuantity : Int)
    (adjusterId adjusterUsername : String) (now : Nat) :
    Except DbError DBState :=
  match db.orders.find? (fun o => o.id = orderId) with
  | none => .error .notFound
  | some order =>
      match db.sessions order.group_buy_id with
      | none => .error .notFound
      | some gb =>
          if gb.status ≠ .closed then .error .notClosed
          else
            let oldQty := order.quantity
            let origQty := order.original_quantity.getD oldQty
            let orders' := db.orders.map fun o =>
              if o.id = orderId then
                { o with quantity := newQuantity, original_quantity := some origQty }
              else o
            let adj : ShortageAdjustment :=
              ⟨order.group_buy_id, order.id, adjusterId, adjusterUsername,
               order.item_name, order.buyer_id, order.buyer_username,
               oldQty, newQuantity, now⟩
            let log : LogEntry :=
              ⟨order.group_buy_id, adjusterId, adjusterUsername,
               "adjust_shortage",
               adjustSingleMsg order.buyer_username order.item_name oldQty newQuantity,
               now⟩
            .ok { db with orders := orders',
                          adjustments := db.adjustments ++ [adj],
                          logs := db.logs ++ [log] }

/-- One step of the batch adjustment loop body: given the pre-transaction
snapshot row `order`, apply the quantity update, record the shortage
adjustment, and extend the returned records — when the buyer appears in the
adjustments map. -/
def adjustBatchStep (gbId itemName adjusterId adjusterUsername : String)
    (adjustments : List (String × Int)) (now : Nat)
    (acc : DBState × List AdjustmentRecord) (order : GroupBuyOrder) :
    DBState × List AdjustmentRecord :=
  match lookupKey adjustments order.buyer_username with
  | none => acc
  | some newQty =>
      let dbA := acc.1
      let recs := acc.2
      let oldQty := order.quantity
      let origQty := order.original_quantity.getD oldQty
      let orders' := dbA.orders.map fun o =>
        if o.id = order.id then
          { o with quantity := newQty, original_quantity := some origQty }
        else o
      let adj : ShortageAdjustment :=
        ⟨gbId, order.id, adjusterId, adjusterUsername, itemName,
         order.buyer_id, order.buyer_username, oldQty, newQty, now⟩
      ({ dbA with orders := orders', adjustments := dbA.adjustments ++ [adj] },
       recs ++ [⟨order.buyer_username, oldQty, newQty⟩])

/-- The plain-text (`format!`) details message the batch adjustment logs. -/
def adjustBatchMsg (itemName : String) (count : Nat) : String :=
  "調整 " ++ itemName ++ " 的數量，影響 " ++ toString count ++ " 位用戶"

/-- Model of `Database::adjust_order_quantity`: inside one transaction — check the
session is `closed`, fetch every order of the item, and for each fetched
order whose buyer appears in the adjustments map update its quantity
(setting `original_quantity` from the snapshot when not yet set) and insert
one `shortage_adjustments` row; finally insert a single `adjust_shortage`
audit row (plain-text details) for the whole batch and commit. -/
def adjustOrderQuantity (db : DBState) (gbId itemName : String)
    (adjustments : List (String × Int)) (adjusterId adjusterUsername : String)
    (now : Nat) : Except DbError (DBState × List AdjustmentRecord) :=
  match db.sessions gbId with
  | none => .error .notFound
  | some gb =>
      if gb.status ≠ .closed then .error .notClosed
      else
        let matching := db.orders.filter fun o =>
          o.group_buy_id = gbId ∧ o.item_name = itemName
        let folded := matching.foldl
          (adjustBatchStep gbId itemName adjusterId adjusterUsername adjustments now)
          (db, [])
        let dbF := folded.1
        let records := folded.2
        let log : LogEntry :=
          ⟨gbId, adjusterId, adjusterUsername, "adjust_shortage",
           adjustBatchMsg itemName records.length, now⟩
        .ok ({ dbF with logs := dbF.logs ++ [log] }, records)

/-- The raw `group_buy_orders` row as it comes back from SQLite
(`GroupBuyOrderRow`): `unit_price` is the stored TEXT. -/
structure GroupBuyOrderRow where
  id : Option String
  group_buy_id : String
  registrar_id : String
  registrar_username : String
  buyer_id : String
  buyer_username : String
  item_name : String
  quantity : Int
  original_quantity : Option Int
  unit_price : String
  created_at : Nat
deriving Repr, DecidableEq

/-- Numeric value of a digit character. -/
def charDigit (c : Char) : Nat := c.toNat - '0'.toNat

/-- Value of a digit string read left to right. -/
def digitsVal (l : List Char) : Nat := l.foldl (fun a c => a * 10 + charDigit c) 0

/-- Model of `rust_decimal::Decimal::from_str`: an optional sign, then digits with
underscores permitted as separators and at most one decimal point; anything
else fails.  The numeric value is exact. -/
def parseDecimal (s : String) : Option Money :=
  let cs0 := s.data
  let neg :=
    match cs0 with
    | '-' :: _ => true
    | _ => false
  let cs1 :=
    match cs0 with
    | '-' :: rest => rest
    | '+' :: rest => rest
    | l => l
  let cs := cs1.filter fun c => c ≠ '_'
  if cs.countP (fun c => c = '.') ≤ 1 ∧ cs.any Char.isDigit = true ∧
     cs.all (fun c => c.isDigit || c = '.') = true then
    let intPart := cs.takeWhile fun c => c ≠ '.'
    let fracPart := (cs.dropWhile fun c => c ≠ '.').drop 1
    let mag : Money :=
      (digitsVal intPart : Money) +
        (digitsVal fracPart : Money) / ((10 : Money) ^ fracPart.length)
    some (if neg then -mag else mag)
  else none

/-- Model of `From<GroupBuyOrderRow> for GroupBuyOrder`: a `unit_price` text that
does not parse falls back to `Decimal::ZERO` (`unwrap_or`), never an
error. -/
def orderFromRow (r : GroupBuyOrderRow) : GroupBuyOrder :=
  { id := r.id.getD ""
    group_buy_id := r.group_buy_id
    registrar_id := r.registrar_id
    registrar_username := r.registrar_username
    buyer_id := r.buyer_id
    buyer_username := r.buyer_username
    item_name := r.item_name
    quantity := r.quantity
    original_quantity := r.original_quantity
    unit_price := (parseDecimal r.unit_price).getD 0
    created_at := r.created_at }

/-- Stable insertion of one element into a sorted list. -/
def insertBy {α : Type} (le : α → α → Bool) (x : α) : List α → List α
  | [] => [x]
  | y :: ys => if le x y then x :: y :: ys else y :: insertBy le x ys

/-- Stable sort (models SQL `ORDER BY` and Rust `sort_by_key`). -/
def sortBy {α : Type} (le : α → α → Bool) : List α → List α
  | [] => []
  | x :: xs => insertBy le x (sortBy le xs)

/-- Model of `Database::get_orders_by_group_buy`: select by session, order by
`created_at` ascending, convert each row.  Total: row conversion cannot
fail. -/
def getOrdersByGroupBuy (rows : List GroupBuyOrderRow) (gbId : String) :
    List GroupBuyOrder :=
  (sortBy (fun a b => decide (a.created_at ≤ b.created_at))
      (rows.filter fun r => r.group_buy_id = gbId)).map orderFromRow

/-- Model of `Database::get_buyer_orders`: select by session and buyer, convert. -/
def getBuyerOrders (rows : List GroupBuyOrderRow) (gbId buyerId : String) :
    List GroupBuyOrder :=
  (rows.filter fun r => r.group_buy_id = gbId ∧ r.buyer_id = buyerId).map orderFromRow

/-- Model of `Database::get_all_orders`: select by session, convert. -/
def getAllOrders (rows : List GroupBuyOrderRow) (gbId : String) :
    List GroupBuyOrder :=
  (rows.filter fun r => r.group_buy_id = gbId).map orderFromRow

/-- Model of `*map.entry(k).or_insert(zero) += v` on an association list (keys are
unique by construction, as in `HashMap`). -/
def mapAdd {α : Type} [Add α] (m : List (String × α)) (k : String) (v : α) :
    List (String × α) :=
  match m with
  | [] => [(k, v)]
  | kv :: rest =>
      if kv.1 = k then (kv.1, kv.2 + v) :: rest else kv :: mapAdd rest k v

/-- Shopping-list accumulation: total quantity per item name
(`handle_shopping_list_action`). -/
def shoppingTotals (orders : List GroupBuyOrder) : List (String × Int) :=
  orders.foldl (fun m o => mapAdd m o.item_name o.quantity) []

/-- One row of the shopping-list table. -/
structure ShoppingRow where
  item_name : String
  total_qty : Int
  price : Money
  subtotal : Money
deriving Repr, DecidableEq

/-- The shopping-list table rows: items sorted by name; the displayed price
is looked up in the session's **current** menu (`group_buy.items.get`) with
`Decimal::ZERO` fallback, and the row subtotal is that price times the total
quantity. -/
def shoppingListRows (gb : GroupBuy) (orders : List GroupBuyOrder) :
    List ShoppingRow :=
  (sortBy (fun a b => decide (a.1 ≤ b.1)) (shoppingTotals orders)).map fun kv =>
    let price := (lookupKey gb.items kv.1).getD 0
    ⟨kv.1, kv.2, price, price * (kv.2 : Money)⟩

/-- The shopping-list grand total: Σ over orders of `unit_price × quantity`
(`handle_shopping_list_action`, exact decimal arithmetic). -/
def shoppingGrandTotal (orders : List GroupBuyOrder) : Money :=
  (orders.map fun o => o.unit_price * (o.quantity : Money)).sum

/-- Per-buyer subtotals: Σ of `unit_price × quantity` grouped by buyer
(`handle_subtotal_action`). -/
def buyerSubtotals (orders : List GroupBuyOrder) : List (String × Money) :=
  orders.foldl
    (fun m o => mapAdd m o.buyer_username (o.unit_price * (o.quantity : Money))) []

/-- The per-buyer view's grand total: Σ over orders of
`unit_price × quantity` (`handle_subtotal_action`). -/
def subtotalGrandTotal (orders : List GroupBuyOrder) : Money :=
  (orders.map fun o => o.unit_price * (o.quantity : Money)).sum

/-- Outcome of a Register dialog submission
(`handle_register_dialog`). -/
inductive RegisterResult where
  | fieldError
  | notFoundErr
  | unknownItem
  | deleted (db : DBState)
  | created (db : DBState)
  | storeError (e : DbError)

/-- The decision core of `handle_register_dialog` after form parsing: a
parsed quantity must be ≥ 0; the session and the chosen item must exist
(the captured `unit_price` comes from the session's items); quantity 0
deletes all of the buyer's orders of the item, a positive quantity creates
exactly one new order row. -/
def registerSubmit (db : DBState)
    (gbId buyerId buyerUsername registrarId registrarUsername itemName : String)
    (quantity : Int) (orderId : String) (now : Nat) : RegisterResult :=
  if quantity < 0 then .fieldError
  else
    match db.sessions gbId with
    | none => .notFoundErr
    | some gb =>
        match lookupKey gb.items itemName with
        | none => .unknownItem
        | some price =>
            if quantity = 0 then
              .deleted (deleteBuyerItemOrders db gbId buyerId itemName
                registrarId registrarUsername now).1
            else
              let order : GroupBuyOrder :=
                ⟨orderId, gbId, registrarId, registrarUsername, buyerId,
                 buyerUsername, itemName, quantity, none, price, now⟩
              match createOrder db order now with
              | .ok db' => .created db'
              | .error e => .storeError e

/-- The post-id binding prelude of `handle_group_buy_action`: when the
session exists and its `post_id` is still null, bind it to the incoming
action's post id (failures are only logged, leaving the state as is). -/
def actionPrelude (db : DBState) (gbId actionPostId : String) (now : Nat) :
    DBState :=
  match db.sessions gbId with
  | none => db
  | some gb =>
      if gb.post_id = none then
        match updatePostId db gbId actionPostId now with
        | .ok db' => db'
        | .error _ => db
      else db

/-- Every state-mutating operation reachable from the action router and the
dialog handlers, for whole-trace invariants. -/
inductive StoreOp where
  | prelude (gbId postId : String) (now : Nat)
  | updItems (id : String) (items : List (String × Money)) (ev : Int)
      (u un : String) (now : Nat)
  | updStatus (id : String) (st : GroupBuyStatus) (ev : Int)
      (u un : String) (now : Nat)
  | createOrd (o : GroupBuyOrder) (now : Nat)
  | delBuyerItem (gbId buyerId itemName aId aU : String) (now : Nat)
  | delForBuyer (gbId buyerId aId aU : String) (now : Nat)
  | adjSingle (orderId : String) (q : Int) (aId aU : String) (now : Nat)
  | adjBatch (gbId itemName : String) (adjs : List (String × Int))
      (aId aU : String) (now : Nat)

/-- Run one store operation; a failed operation leaves the state unchanged
(the Rust caller keeps going with the old state after an `Err`). -/
def applyOp (db : DBState) : StoreOp → DBState
  | .prelude g p now => actionPrelude db g p now
  | .updItems id items ev u un now =>
      match updateItems db id items ev u un now with
      | .ok d => d
      | .error _ => db
  | .updStatus id st ev u un now =>
      match updateStatus db id st ev u un now with
      | .ok d => d
      | .error _ => db
  | .createOrd o now =>
      match createOrder db o now with
      | .ok d => d
      | .error _ => db
  | .delBuyerItem g b i aId aU now =>
      (deleteBuyerItemOrders db g b i aId aU now).1
  | .delForBuyer g b aId aU now =>
      (deleteOrdersForBuyer db g b aId aU now).1
  | .adjSingle oid q aId aU now =>
      match adjustSingleOrder db oid q aId aU now with
      | .ok d => d
      | .error _ => db
  | .adjBatch g i adjs aId aU now =>
      match adjustOrderQuantity db g i adjs aId aU now with
      | .ok d => d.1
      | .error _ => db

/-- Run a list of store operations in order. -/
def applyOps (db : DBState) (ops : List StoreOp) : DBState :=
  ops.foldl applyOp db

/-- An order row whose stored `unit_price` is the non-decimal text `abc`. -/
def exRow10 : GroupBuyOrderRow :=
  ⟨some "o1", "g", "reg", "reg", "b", "b", "A", 2, none, "abc", 3⟩

/-- A concrete closed session for the C4 witness. -/
def exGb4 : GroupBuy :=
  ⟨"g", "c", "c", "ch", none, "m", none, [], [("A", 50)], .closed, 1, 0, 0⟩

/-- A concrete one-session state for the C4 witness. -/
def exDb4 : DBState :=
  ⟨fun i => if i = "g" then some exGb4 else none,
   [⟨"o1", "g", "r", "r", "b", "b", "A", 2, none, 50, 1⟩], [], []⟩

/-- A concrete Active session for the C8 witness. -/
def exGb8 : GroupBuy :=
  ⟨"g", "c", "c", "ch", none, "m", none, [], [("A", 50)], .active, 2, 0, 0⟩

/-- A concrete state with one existing order for the C8 witness. -/
def exDb8 : DBState :=
  ⟨fun i => if i = "g" then some exGb8 else none,
   [⟨"o1", "g", "r", "r", "b", "b", "A", 2, none, 50, 1⟩], [], []⟩

/-- The state after a successful `update_items` against `exDb8`. -/
def exDb2w : DBState :=
  (updateItems exDb8 "g" [("B", 60)] 2 "u" "u" 9).toOption.getD exDb8

/-- A concrete closed session with two orders of the same item for the C3
counterexample. -/
def exGb3 : GroupBuy :=
  ⟨"g", "c", "c", "ch", none, "m", none, [], [("A", 50)], .closed, 2, 0, 0⟩

/-- The state holding `exGb3` and two orders by alice and bob. -/
def exDb3 : DBState :=
  ⟨fun i => if i = "g" then some exGb3 else none,
   [⟨"o1", "g", "r", "r", "alice", "alice", "A", 3, none, 50, 1⟩,
    ⟨"o2", "g", "r", "r", "bob", "bob", "A", 4, none, 50, 2⟩], [], []⟩

/-- The state after a successful single-order adjustment on `exDb3`. -/
def exDb3s : DBState :=
  (adjustSingleOrder exDb3 "o1" 1 "adm" "adm" 9).toOption.getD exDb3

/-- A concrete Active session with item price 50 for the C5 counterexample. -/
def exGb5 : GroupBuy :=
  ⟨"g", "c", "c", "ch", none, "m", none, [], [("A", 50)], .active, 1, 0, 0⟩

/-- The state holding `exGb5` and one pre-existing order captured at 50. -/
def exDb5 : DBState :=
  ⟨fun i => if i = "g" then some exGb5 else none,
   [⟨"o1", "g", "r", "r", "b", "b", "A", 1, none, 50, 1⟩], [], []⟩

/-- The state after `update_items` repriced item A from 50 to 60. -/
def exDb5r : DBState :=
  (updateItems exDb5 "g" [("A", 60)] 1 "u" "u" 7).toOption.getD exDb5

/-- A session with `post_id` already bound, for the C9 witness. -/
def exGb9 : GroupBuy :=
  ⟨"g", "c", "c", "ch", some "post1", "m", none, [], [("A", 50)], .active, 1, 0, 0⟩

/-- The state holding `exGb9`. -/
def exDb9 : DBState :=
  ⟨fun i => if i = "g" then some exGb9 else none, [], [], []⟩

/-- The shortage-adjustment operations, for whole-trace reasoning: the
per-order flow (`adjust_single_order`, used by the adjust dialog) and the
per-item batch (`adjust_order_quantity`). -/
inductive AdjustOp where
  | single (orderId : String) (q : Int) (aId aU : String) (now : Nat)
  | batch (gbId itemName : String) (adjs : List (String × Int))
      (aId aU : String) (now : Nat)

/-- Run one adjustment; a failed operation leaves the state unchanged. -/
def applyAdjust (db : DBState) : AdjustOp → DBState
  | .single oid q aId aU now =>
      match adjustSingleOrder db oid q aId aU now with
      | .ok d => d
      | .error _ => db
  | .batch g i adjs aId aU now =>
      match adjustOrderQuantity db g i adjs aId aU now with
      | .ok p => p.1
      | .error _ => db

/-- Run a list of adjustments in order. -/
def applyAdjusts (db : DBState) (ops : List AdjustOp) : DBState :=
  ops.foldl applyAdjust db

/-- Invariant tracked for one order id: ids are unique, the row is present,
and its `original_quantity` is either still unset (quantity untouched at
`q0`) or permanently `q0`. -/
def TrackInv (oid : String) (q0 : Int) (orders : List GroupBuyOrder) : Prop :=
  (orders.map (·.id)).Nodup ∧
  ∃ o, orders.find? (fun x => x.id = oid) = some o ∧
    ((o.original_quantity = none ∧ o.quantity = q0) ∨ o.original_quantity = some q0)

/-- The ids of `exDb3`'s two orders (for the C6 witness). -/
def exOrd6 : GroupBuyOrder := ⟨"o1", "g", "r", "r", "alice", "alice", "A", 3, none, 50, 1⟩

/-- The two version-guarded mutations of a session. -/
inductive StoreCall where
  | updItems (items : List (String × Money)) (userId username : String)
  | updStatus (st : GroupBuyStatus) (userId username : String)

/-- Run one version-guarded call with a caller-supplied expected version. -/
def applyCall (db : DBState) (id : String) (c : StoreCall) (expected : Int)
    (now : Nat) : Except DbError DBState :=
  match c with
  | .updItems items u un => updateItems db id items expected u un now
  | .updStatus st u un => updateStatus db id st expected u un now

/-- Run a sequence of version-guarded calls, stopping at the first error. -/
def applyCalls (db : DBState) (id : String) :
    List (StoreCall × Int × Nat) → Except DbError DBState
  | [] => .ok db
  | (c, ev, now) :: rest =>
      match applyCall db id c ev now with
      | .ok db1 => applyCalls db1 id rest
      | .error e => .error e

/-- The acting user id of a call. -/
def callUserId : StoreCall → String
  | .updItems _ u _ => u
  | .updStatus _ u _ => u

/-- The acting username of a call. -/
def callUsername : StoreCall → String
  | .updItems _ _ un => un
  | .updStatus _ _ un => un

/-- The audit action tag a call writes. -/
def callAction : StoreCall → String
  | .updItems _ _ _ => "update_items"
  | .updStatus st _ _ => "update_status_" ++ st.toStr

/-- The JSON details object a call writes, recording version `v`. -/
def callDetails (c : StoreCall) (v : Int) : Json :=
  match c with
  | .updItems items _ _ => updateItemsDetailsJson items v
  | .updStatus st _ _ => updateStatusDetailsJson st v

/-- The audit entry a successful call appends when the stored version was
`v`. -/
def callLog (id : String) (c : StoreCall) (v : Int) (now : Nat) : LogEntry :=
  ⟨id, callUserId c, callUsername c, callAction c, (callDetails c v).serialize, now⟩

/-- The audit entries a successful call sequence appends, starting from
stored version `v`. -/
def traceLogs (id : String) (v : Int) : List (StoreCall × Int × Nat) → List LogEntry
  | [] => []
  | (c, _, now) :: rest => callLog id c v now :: traceLogs id (v + 1) rest

/-- The versions those audit entries record: `v, v+1, v+2, …`. -/
def traceVersions {α : Type} (v : Int) : List α → List Int
  | [] => []
  | _ :: rest => v :: traceVersions (v + 1) rest

/-- A two-call sequence (edit items, then close) for the C1 witness. -/
def exSeq1 : List (StoreCall × Int × Nat) :=
  [(.updItems [("A", 60)] "u" "u", 1, 7), (.updStatus .closed "u" "u", 2, 8)]

/-- The state after running `exSeq1` against `exDb5`. -/
def exDb1r : DBState := (applyCalls exDb5 "g" exSeq1).toOption.getD exDb5

/-! ### Helper lemmas -/

theorem mem_insertBy {α : Type} (le : α → α → Bool) (x a : α) (l : List α) :
    a ∈ insertBy le x l ↔ a = x ∨ a ∈ l := by
  induction l with
  | nil => simp [insertBy]
  | cons y ys ih =>
      simp only [insertBy]
      split
      · simp [List.mem_cons]
      · simp only [List.mem_cons, ih]
        tauto

theorem mem_sortBy {α : Type} (le : α → α → Bool) (a : α) (l : List α) :
    a ∈ sortBy le l ↔ a ∈ l := by
  induction l with
  | nil => simp [sortBy]
  | cons y ys ih => simp [sortBy, mem_insertBy, ih]

theorem mapAdd_snd_sum {α : Type} [AddCommMonoid α]
    (m : List (String × α)) (k : String) (v : α) :
    ((mapAdd m k v).map (·.2)).sum = (m.map (·.2)).sum + v := by
  induction m with
  | nil => simp [mapAdd]
  | cons kv rest ih =>
      simp only [mapAdd]
      split
      · simp only [List.map_cons, List.sum_cons]
        abel
      · simp only [List.map_cons, List.sum_cons, ih]
        abel

theorem foldl_mapAdd_snd_sum {α : Type} [AddCommMonoid α]
    (key : GroupBuyOrder → String) (val : GroupBuyOrder → α)
    (orders : List GroupBuyOrder) :
    ∀ m : List (String × α),
      ((orders.foldl (fun acc o => mapAdd acc (key o) (val o)) m).map (·.2)).sum
        = (m.map (·.2)).sum + (orders.map val).sum := by
  induction orders with
  | nil => intro m; simp
  | cons o os ih =>
      intro m
      simp only [List.foldl_cons, List.map_cons, List.sum_cons]
      rw [ih, mapAdd_snd_sum]
      abel

theorem serialize_obj_head (fs : List (String × JVal)) :
    (Json.serialize (.obj fs)).data.head? = some '\x7b' := by
  simp [Json.serialize, String.data_append]

theorem not_json_of_head_diao (s : String) (h : s.data.head? = some '調') :
    ¬ IsJsonWithVersion s := by
  rintro ⟨j, hser, hkey⟩
  cases j with
  | str v => simp [Json.hasKey] at hkey
  | num v => simp [Json.hasKey] at hkey
  | obj fs =>
      have h2 := serialize_obj_head fs
      rw [hser, h] at h2
      simp at h2

theorem adjustSingleMsg_head (b i : String) (o n : Int) :
    (adjustSingleMsg b i o n).data.head? = some '調' := by
  simp [adjustSingleMsg, String.data_append]

theorem adjustBatchMsg_head (i : String) (c : Nat) :
    (adjustBatchMsg i c).data.head? = some '調' := by
  simp [adjustBatchMsg, String.data_append]

theorem deleteRegDetails_isJson (b i : String) (v : Int) :
    IsJsonWithVersion ((deleteRegDetailsJson b i v).serialize) :=
  ⟨deleteRegDetailsJson b i v, rfl, rfl⟩

theorem cancelAllDetails_isJson (b : String) (v : Int) :
    IsJsonWithVersion ((cancelAllDetailsJson b v).serialize) :=
  ⟨cancelAllDetailsJson b v, rfl, rfl⟩

/-! ### C10 -/

/-- C10: reading stored order rows is total — a `unit_price` text that does
not parse as a decimal yields the order with `unit_price = 0` in all three
order queries (no error is reported), so its cost contribution to
aggregations is 0. -/
theorem malformed_unit_price_reads_zero
    (rows : List GroupBuyOrderRow) (r : GroupBuyOrderRow) (gbId buyerId : String)
    (hr : r ∈ rows) (hmal : parseDecimal r.unit_price = none)
    (hgb : r.group_buy_id = gbId) :
    (orderFromRow r).unit_price = 0 ∧
    orderFromRow r ∈ getOrdersByGroupBuy rows gbId ∧
    (r.buyer_id = buyerId → orderFromRow r ∈ getBuyerOrders rows gbId buyerId) ∧
    orderFromRow r ∈ getAllOrders rows gbId ∧
    (orderFromRow r).unit_price * ((orderFromRow r).quantity : Money) = 0 := by
  have hp : (orderFromRow r).unit_price = 0 := by simp [orderFromRow, hmal]
  refine ⟨hp, ?_, ?_, ?_, by rw [hp]; ring⟩
  · unfold getOrdersByGroupBuy
    exact List.mem_map_of_mem _
      ((mem_sortBy _ _ _).mpr (List.mem_filter.mpr ⟨hr, by simp [hgb]⟩))
  · intro hb
    unfold getBuyerOrders
    exact List.mem_map_of_mem _ (List.mem_filter.mpr ⟨hr, by simp [hgb, hb]⟩)
  · unfold getAllOrders
    exact List.mem_map_of_mem _ (List.mem_filter.mpr ⟨hr, by simp [hgb]⟩)

/-- Witness for C10 at the concrete malformed row `exRow10`. -/
theorem malformed_unit_price_reads_zero_witness :
    exRow10 ∈ [exRow10] ∧ parseDecimal exRow10.unit_price = none ∧
    exRow10.group_buy_id = "g" ∧
    ((orderFromRow exRow10).unit_price = 0 ∧
     orderFromRow exRow10 ∈ getOrdersByGroupBuy [exRow10] "g" ∧
     (exRow10.buyer_id = "b" → orderFromRow exRow10 ∈ getBuyerOrders [exRow10] "g" "b") ∧
     orderFromRow exRow10 ∈ getAllOrders [exRow10] "g" ∧
     (orderFromRow exRow10).unit_price * ((orderFromRow exRow10).quantity : Money) = 0) :=
  ⟨List.mem_singleton.mpr rfl, by decide, rfl,
   malformed_unit_price_reads_zero [exRow10] exRow10 "g" "b"
     (List.mem_singleton.mpr rfl) (by decide) rfl⟩

/-! ### C7 -/

/-- C7: the shopping-list grand total equals the per-buyer view's grand
total, the per-buyer subtotals sum to that same grand total, and all equal
Σ `unit_price × quantity` over all orders, computed in exact (rational)
arithmetic — the model of `rust_decimal` — with no floating point. -/
theorem aggregation_grand_totals (orders : List GroupBuyOrder) :
    shoppingGrandTotal orders = subtotalGrandTotal orders ∧
    ((buyerSubtotals orders).map (·.2)).sum = subtotalGrandTotal orders ∧
    subtotalGrandTotal orders
      = (orders.map fun o => o.unit_price * (o.quantity : Money)).sum := by
  refine ⟨rfl, ?_, rfl⟩
  unfold buyerSubtotals subtotalGrandTotal
  rw [foldl_mapAdd_snd_sum]
  simp

/-! ### C4 -/

/-- C4: `create_order` fails with the session-closed error whenever the
parent session is Closed at commit time, and both shortage-adjustment
operations fail with the not-closed error whenever the session is Active;
in each case the stored state is unchanged (`applyOp` keeps the old
state). -/
theorem status_gating (db : DBState) (gbId : String) (gb : GroupBuy)
    (hgb : db.sessions gbId = some gb) :
    (∀ o now, o.group_buy_id = gbId → gb.status = .closed →
        createOrder db o now = .error .sessionClosed ∧
        applyOp db (.createOrd o now) = db) ∧
    (∀ itemName adjs aId aU now, gb.status = .active →
        adjustOrderQuantity db gbId itemName adjs aId aU now = .error .notClosed ∧
        applyOp db (.adjBatch gbId itemName adjs aId aU now) = db) ∧
    (∀ oid q aId aU now ord,
        db.orders.find? (fun o => o.id = oid) = some ord →
        ord.group_buy_id = gbId → gb.status = .active →
        adjustSingleOrder db oid q aId aU now = .error .notClosed ∧
        applyOp db (.adjSingle oid q aId aU now) = db) := by
  refine ⟨?_, ?_, ?_⟩
  · intro o now ho hst
    have h1 : createOrder db o now = .error .sessionClosed := by
      simp [createOrder, ho, hgb, hst]
    exact ⟨h1, by simp [applyOp, h1]⟩
  · intro itemName adjs aId aU now hst
    have h1 : adjustOrderQuantity db gbId itemName adjs aId aU now
        = .error .notClosed := by
      simp [adjustOrderQuantity, hgb, hst]
    exact ⟨h1, by simp [applyOp, h1]⟩
  · intro oid q aId aU now ord hord ho hst
    have h1 : adjustSingleOrder db oid q aId aU now = .error .notClosed := by
      simp [adjustSingleOrder, hord, ho, hgb, hst]
    exact ⟨h1, by simp [applyOp, h1]⟩

/-- Witness for C4: on the closed session `exGb4`, `create_order` is
rejected and the state is unchanged. -/
theorem status_gating_witness :
    exDb4.sessions "g" = some exGb4 ∧
    (createOrder exDb4 ⟨"o2", "g", "r", "r", "b", "b", "A", 1, none, 50, 2⟩ 2
        = .error .sessionClosed ∧
     applyOp exDb4 (.createOrd ⟨"o2", "g", "r", "r", "b", "b", "A", 1, none, 50, 2⟩ 2)
        = exDb4) :=
  ⟨rfl, (status_gating exDb4 "g" exGb4 rfl).1
    ⟨"o2", "g", "r", "r", "b", "b", "A", 1, none, 50, 2⟩ 2 rfl rfl⟩

/-! ### C8 -/

/-- C8: a Register submission against an Active session with a known item —
quantity 0 deletes all of the buyer's order rows for that item and creates
nothing; a positive quantity appends exactly one new order row capturing
`unit_price` from the session's current items, leaving all existing rows
unmodified. -/
theorem register_quantity_semantics
    (db : DBState) (gbId buyerId buyerUsername regId regU itemName orderId : String)
    (q : Int) (now : Nat) (gb : GroupBuy) (price : Money)
    (hgb : db.sessions gbId = some gb)
    (hactive : gb.status = .active)
    (hitem : lookupKey gb.items itemName = some price) :
    (q = 0 → ∃ db',
        registerSubmit db gbId buyerId buyerUsername regId regU itemName q orderId now
          = .deleted db' ∧
        db'.orders = db.orders.filter (fun o => ¬ matchesBuyerItem gbId buyerId itemName o) ∧
        db'.sessions = db.sessions) ∧
    (0 < q → ∃ db',
        registerSubmit db gbId buyerId buyerUsername regId regU itemName q orderId now
          = .created db' ∧
        db'.orders = db.orders ++
          [⟨orderId, gbId, regId, regU, buyerId, buyerUsername, itemName, q, none, price, now⟩] ∧
        db'.sessions = db.sessions) := by
  constructor
  · intro hq
    subst hq
    refine ⟨(deleteBuyerItemOrders db gbId buyerId itemName regId regU now).1,
      ?_, ?_, ?_⟩
    · simp [registerSubmit, hgb, hitem]
    · simp [deleteBuyerItemOrders, logAction]
    · simp [deleteBuyerItemOrders, logAction]
  · intro hq
    have hq0 : ¬ q < 0 := by omega
    have hq1 : ¬ q = 0 := by omega
    refine ⟨logAction
        { db with orders := db.orders ++
            [⟨orderId, gbId, regId, regU, buyerId, buyerUsername, itemName, q, none, price, now⟩] }
        gbId regId regU "register"
        (some ((registerDetailsJson
          ⟨orderId, gbId, regId, regU, buyerId, buyerUsername, itemName, q, none, price, now⟩
          gb.version).serialize)) now, ?_, ?_, ?_⟩
    · simp [registerSubmit, hgb, hitem, hq0, hq1, createOrder, hactive]
    · simp [logAction]
    · simp [logAction]

/-- Witness for C8 at quantity 3 against `exDb8`. -/
theorem register_quantity_semantics_witness :
    exDb8.sessions "g" = some exGb8 ∧ exGb8.status = .active ∧
    lookupKey exGb8.items "A" = some 50 ∧
    ((3 : Int) = 0 → ∃ db',
        registerSubmit exDb8 "g" "b" "b" "r" "r" "A" 3 "o2" 7 = .deleted db' ∧
        db'.orders = exDb8.orders.filter (fun o => ¬ matchesBuyerItem "g" "b" "A" o) ∧
        db'.sessions = exDb8.sessions) ∧
    ((0 : Int) < 3 → ∃ db',
        registerSubmit exDb8 "g" "b" "b" "r" "r" "A" 3 "o2" 7 = .created db' ∧
        db'.orders = exDb8.orders ++
          [⟨"o2", "g", "r", "r", "b", "b", "A", 3, none, 50, 7⟩] ∧
        db'.sessions = exDb8.sessions) := by
  have h := register_quantity_semantics exDb8 "g" "b" "b" "r" "r" "A" "o2" 3 7 exGb8 50
    rfl rfl (by decide)
  exact ⟨rfl, rfl, by decide, h.1, h.2⟩

/-! ### Batch-fold frame lemmas -/

theorem adjustBatchStep_fold_sessions
    (g i aId aU : String) (adjs : List (String × Int)) (now : Nat) :
    ∀ (l : List GroupBuyOrder) (acc : DBState × List AdjustmentRecord),
      (l.foldl (adjustBatchStep g i aId aU adjs now) acc).1.sessions
        = acc.1.sessions := by
  intro l
  induction l with
  | nil => intro acc; rfl
  | cons o os ih =>
      intro acc
      rw [List.foldl_cons, ih]
      unfold adjustBatchStep
      cases lookupKey adjs o.buyer_username <;> rfl

theorem adjustBatchStep_fold_logs
    (g i aId aU : String) (adjs : List (String × Int)) (now : Nat) :
    ∀ (l : List GroupBuyOrder) (acc : DBState × List AdjustmentRecord),
      (l.foldl (adjustBatchStep g i aId aU adjs now) acc).1.logs
        = acc.1.logs := by
  intro l
  induction l with
  | nil => intro acc; rfl
  | cons o os ih =>
      intro acc
      rw [List.foldl_cons, ih]
      unfold adjustBatchStep
      cases lookupKey adjs o.buyer_username <;> rfl

theorem adjustBatchStep_fold_orders_length
    (g i aId aU : String) (adjs : List (String × Int)) (now : Nat) :
    ∀ (l : List GroupBuyOrder) (acc : DBState × List AdjustmentRecord),
      (l.foldl (adjustBatchStep g i aId aU adjs now) acc).1.orders.length
        = acc.1.orders.length := by
  intro l
  induction l with
  | nil => intro acc; rfl
  | cons o os ih =>
      intro acc
      rw [List.foldl_cons, ih]
      unfold adjustBatchStep
      cases lookupKey adjs o.buyer_username <;> simp

theorem adjustBatchStep_fold_adjustments_length
    (g i aId aU : String) (adjs : List (String × Int)) (now : Nat) :
    ∀ (l : List GroupBuyOrder) (acc : DBState × List AdjustmentRecord),
      (l.foldl (adjustBatchStep g i aId aU adjs now) acc).1.adjustments.length
          + acc.2.length
        = acc.1.adjustments.length
          + (l.foldl (adjustBatchStep g i aId aU adjs now) acc).2.length := by
  intro l
  induction l with
  | nil => intro acc; rfl
  | cons o os ih =>
      intro acc
      rw [List.foldl_cons]
      have hstep :
          (adjustBatchStep g i aId aU adjs now acc o).1.adjustments.length
              + acc.2.length
            = acc.1.adjustments.length
              + (adjustBatchStep g i aId aU adjs now acc o).2.length := by
        unfold adjustBatchStep
        cases lookupKey adjs o.buyer_username with
        | none => simp
        | some nq => simp; omega
      have h := ih (adjustBatchStep g i aId aU adjs now acc o)
      omega

/-- Success shape of `adjust_single_order`: one updated order row, one
shortage-adjustment row, one audit row, sessions untouched. -/
theorem adjustSingleOrder_ok_shape
    (db : DBState) (oid : String) (q : Int) (aId aU : String) (now : Nat)
    (db1 : DBState) (h : adjustSingleOrder db oid q aId aU now = .ok db1) :
    ∃ ord, db.orders.find? (fun o => o.id = oid) = some ord ∧
      db1.orders = db.orders.map (fun o => if o.id = oid then
        { o with quantity := q,
                 original_quantity := some (ord.original_quantity.getD ord.quantity) }
        else o) ∧
      db1.adjustments = db.adjustments ++
        [⟨ord.group_buy_id, ord.id, aId, aU, ord.item_name, ord.buyer_id,
          ord.buyer_username, ord.quantity, q, now⟩] ∧
      db1.logs = db.logs ++ [⟨ord.group_buy_id, aId, aU, "adjust_shortage",
        adjustSingleMsg ord.buyer_username ord.item_name ord.quantity q, now⟩] ∧
      db1.sessions = db.sessions := by
  rw [adjustSingleOrder] at h
  cases hf : db.orders.find? (fun o => o.id = oid) with
  | none => simp only [hf] at h; exact absurd h (by simp)
  | some ord =>
      simp only [hf] at h
      cases hs : db.sessions ord.group_buy_id with
      | none => simp only [hs] at h; exact absurd h (by simp)
      | some gb =>
          simp only [hs] at h
          split at h
          · exact absurd h (by simp)
          · injection h with h
            subst h
            exact ⟨ord, rfl, rfl, rfl, rfl, rfl⟩

/-- Success shape of `adjust_order_quantity`: one shortage-adjustment row
per returned record, exactly one audit row for the whole batch, orders
count and sessions untouched. -/
theorem adjustOrderQuantity_ok_shape
    (db : DBState) (g i : String) (adjs : List (String × Int)) (aId aU : String)
    (now : Nat) (db1 : DBState) (recs : List AdjustmentRecord)
    (h : adjustOrderQuantity db g i adjs aId aU now = .ok (db1, recs)) :
    db1.logs = db.logs ++
      [⟨g, aId, aU, "adjust_shortage", adjustBatchMsg i recs.length, now⟩] ∧
    db1.sessions = db.sessions ∧
    db1.orders.length = db.orders.length ∧
    db1.adjustments.length = db.adjustments.length + recs.length ∧
    db1.orders = ((db.orders.filter fun o => o.group_buy_id = g ∧ o.item_name = i).foldl
      (adjustBatchStep g i aId aU adjs now) (db, [])).1.orders := by
  rw [adjustOrderQuantity] at h
  cases hs : db.sessions g with
  | none => simp only [hs] at h; exact absurd h (by simp)
  | some gb =>
      simp only [hs] at h
      split at h
      · exact absurd h (by simp)
      · injection h with h
        have hfst := congrArg Prod.fst h
        have hsnd := congrArg Prod.snd h
        dsimp only at hfst hsnd
        subst hsnd
        subst hfst
        refine ⟨?_, ?_, ?_, ?_, rfl⟩
        · dsimp only
          rw [adjustBatchStep_fold_logs]
        · dsimp only
          rw [adjustBatchStep_fold_sessions]
        · dsimp only
          rw [adjustBatchStep_fold_orders_length]
        · dsimp only
          have := adjustBatchStep_fold_adjustments_length g i aId aU adjs now
            (db.orders.filter fun o => o.group_buy_id = g ∧ o.item_name = i) (db, [])
          simp only [List.length_nil, Nat.add_zero] at this
          omega

/-! ### C2 -/

/-- C2 (amended): every successful mutating Store operation appends exactly
one primary audit entry; for `create_group_buy`, `update_items`,
`update_status`, `create_order` and the two delete operations the entry's
`details` is valid JSON containing a `version` key, but the two
shortage-adjustment operations write a plain-text message that is not JSON
and carries no version. -/
theorem audit_coverage (db : DBState) (now : Nat) :
    (∀ gb db1, createGroupBuy db gb now = .ok db1 →
        ∃ e, db1.logs = db.logs ++ [e] ∧ IsJsonWithVersion e.details) ∧
    (∀ id items ev u un db1, updateItems db id items ev u un now = .ok db1 →
        ∃ e, db1.logs = db.logs ++ [e] ∧ IsJsonWithVersion e.details) ∧
    (∀ id st ev u un db1, updateStatus db id st ev u un now = .ok db1 →
        ∃ e, db1.logs = db.logs ++ [e] ∧ IsJsonWithVersion e.details) ∧
    (∀ o db1, createOrder db o now = .ok db1 →
        ∃ e, db1.logs = db.logs ++ [e] ∧ IsJsonWithVersion e.details) ∧
    (∀ g b i aId aU, ∃ e,
        (deleteBuyerItemOrders db g b i aId aU now).1.logs = db.logs ++ [e] ∧
        IsJsonWithVersion e.details) ∧
    (∀ g b aId aU, ∃ e,
        (deleteOrdersForBuyer db g b aId aU now).1.logs = db.logs ++ [e] ∧
        IsJsonWithVersion e.details) ∧
    (∀ oid q aId aU db1, adjustSingleOrder db oid q aId aU now = .ok db1 →
        ∃ e, db1.logs = db.logs ++ [e] ∧ ¬ IsJsonWithVersion e.details) ∧
    (∀ g i adjs aId aU db1 recs,
        adjustOrderQuantity db g i adjs aId aU now = .ok (db1, recs) →
        ∃ e, db1.logs = db.logs ++ [e] ∧ ¬ IsJsonWithVersion e.details) := by
  refine ⟨?_, ?_, ?_, ?_, ?_, ?_, ?_, ?_⟩
  · intro gb db1 h
    rw [createGroupBuy] at h
    cases hs : db.sessions gb.id with
    | none =>
        simp only [hs] at h
        injection h with h
        subst h
        exact ⟨⟨gb.id, gb.creator_id, gb.creator_username, "create",
          (createDetailsJson gb).serialize, now⟩, rfl, ⟨createDetailsJson gb, rfl, rfl⟩⟩
    | some g0 =>
        simp only [hs] at h
        exact absurd h (by simp)
  · intro id items ev u un db1 h
    rw [updateItems] at h
    cases hs : db.sessions id with
    | none => simp only [hs] at h; exact absurd h (by simp)
    | some gb =>
        simp only [hs] at h
        split at h
        · injection h with h
          subst h
          exact ⟨⟨id, u, un, "update_items",
            (updateItemsDetailsJson items ev).serialize, now⟩, rfl,
            ⟨updateItemsDetailsJson items ev, rfl, rfl⟩⟩
        · exact absurd h (by simp)
  · intro id st ev u un db1 h
    rw [updateStatus] at h
    cases hs : db.sessions id with
    | none => simp only [hs] at h; exact absurd h (by simp)
    | some gb =>
        simp only [hs] at h
        split at h
        · injection h with h
          subst h
          exact ⟨⟨id, u, un, "update_status_" ++ st.toStr,
            (updateStatusDetailsJson st ev).serialize, now⟩, rfl,
            ⟨updateStatusDetailsJson st ev, rfl, rfl⟩⟩
        · exact absurd h (by simp)
  · intro o db1 h
    rw [createOrder] at h
    cases hs : db.sessions o.group_buy_id with
    | none => simp only [hs] at h; exact absurd h (by simp)
    | some gb =>
        simp only [hs] at h
        split at h
        · exact absurd h (by simp)
        · injection h with h
          subst h
          exact ⟨⟨o.group_buy_id, o.registrar_id, o.registrar_username, "register",
            (registerDetailsJson o gb.version).serialize, now⟩, rfl,
            ⟨registerDetailsJson o gb.version, rfl, rfl⟩⟩
  · intro g b i aId aU
    refine ⟨⟨g, aId, aU, "delete_registration",
      (deleteRegDetailsJson b i (((db.sessions g).map (·.version)).getD 0)).serialize, now⟩,
      ?_, deleteRegDetails_isJson b i _⟩
    unfold deleteBuyerItemOrders logAction
    simp
  · intro g b aId aU
    refine ⟨⟨g, aId, aU, "cancel_all_registrations",
      (cancelAllDetailsJson b (((db.sessions g).map (·.version)).getD 0)).serialize, now⟩,
      ?_, cancelAllDetails_isJson b _⟩
    unfold deleteOrdersForBuyer logAction
    simp
  · intro oid q aId aU db1 h
    obtain ⟨ord, _, _, _, hlogs, _⟩ := adjustSingleOrder_ok_shape db oid q aId aU now db1 h
    exact ⟨_, hlogs, not_json_of_head_diao _ (adjustSingleMsg_head _ _ _ _)⟩
  · intro g i adjs aId aU db1 recs h
    obtain ⟨hlogs, _, _, _, _⟩ := adjustOrderQuantity_ok_shape db g i adjs aId aU now db1 recs h
    exact ⟨_, hlogs, not_json_of_head_diao _ (adjustBatchMsg_head _ _)⟩

/-- Counterexample for C2: a successful `adjust_single_order` on the closed
session `exDb4` appends an audit entry whose `details` is the plain-text
adjustment message — not valid JSON and without a `version` key. -/
theorem audit_coverage_counterexample :
    (adjustSingleOrder exDb4 "o1" 1 "adm" "adm" 5).toOption.map
        (fun d => d.logs.map (·.details))
      = some [adjustSingleMsg "b" "A" 2 1] ∧
    ¬ IsJsonWithVersion (adjustSingleMsg "b" "A" 2 1) :=
  ⟨by decide, not_json_of_head_diao _ (adjustSingleMsg_head _ _ _ _)⟩

/-- Witness for C2 (amended): the `update_items` conjunct applied at a
concrete successful call. -/
theorem audit_coverage_witness :
    ∃ e, exDb2w.logs = exDb8.logs ++ [e] ∧ IsJsonWithVersion e.details :=
  (audit_coverage exDb8 9).2.1 "g" [("B", 60)] 2 "u" "u" exDb2w rfl

/-! ### C3 -/

/-- C3 (amended): a successful single-order adjustment atomically writes one
updated order row, one `shortage_adjustments` row and one `group_buy_logs`
row; a successful batch adjustment atomically writes one order update and
one `shortage_adjustments` row per returned record but exactly one
`group_buy_logs` row for the whole batch; on any failure the state is
unchanged. -/
theorem adjustment_atomicity (db : DBState) (now : Nat) :
    (∀ oid q aId aU db1, adjustSingleOrder db oid q aId aU now = .ok db1 →
        ∃ ord, db.orders.find? (fun o => o.id = oid) = some ord ∧
          db1.orders = db.orders.map (fun o => if o.id = oid then
            { o with quantity := q,
                     original_quantity := some (ord.original_quantity.getD ord.quantity) }
            else o) ∧
          db1.orders.length = db.orders.length ∧
          db1.adjustments = db.adjustments ++
            [⟨ord.group_buy_id, ord.id, aId, aU, ord.item_name, ord.buyer_id,
              ord.buyer_username, ord.quantity, q, now⟩] ∧
          db1.logs.length = db.logs.length + 1 ∧
          db1.sessions = db.sessions) ∧
    (∀ g i adjs aId aU db1 recs,
        adjustOrderQuantity db g i adjs aId aU now = .ok (db1, recs) →
        db1.adjustments.length = db.adjustments.length + recs.length ∧
        db1.logs.length = db.logs.length + 1 ∧
        db1.orders.length = db.orders.length ∧
        db1.sessions = db.sessions) ∧
    (∀ oid q aId aU e, adjustSingleOrder db oid q aId aU now = .error e →
        applyOp db (.adjSingle oid q aId aU now) = db) ∧
    (∀ g i adjs aId aU e, adjustOrderQuantity db g i adjs aId aU now = .error e →
        applyOp db (.adjBatch g i adjs aId aU now) = db) := by
  refine ⟨?_, ?_, ?_, ?_⟩
  · intro oid q aId aU db1 h
    obtain ⟨ord, hfind, horders, hadj, hlogs, hsess⟩ :=
      adjustSingleOrder_ok_shape db oid q aId aU now db1 h
    exact ⟨ord, hfind, horders, by rw [horders]; simp, hadj, by rw [hlogs]; simp, hsess⟩
  · intro g i adjs aId aU db1 recs h
    obtain ⟨hlogs, hsess, hlen, hadj, _⟩ :=
      adjustOrderQuantity_ok_shape db g i adjs aId aU now db1 recs h
    exact ⟨hadj, by rw [hlogs]; simp, hlen, hsess⟩
  · intro oid q aId aU e h
    simp [applyOp, h]
  · intro g i adjs aId aU e h
    simp [applyOp, h]

/-- Counterexample for C3: a batch adjustment touching two orders performs
two per-order adjustments (two shortage rows, two records) but appends only
one `group_buy_logs` row, not one per adjusted order. -/
theorem adjustment_atomicity_counterexample :
    (adjustOrderQuantity exDb3 "g" "A" [("alice", 1), ("bob", 2)] "adm" "adm" 9).toOption.map
        (fun p => (p.1.logs.length, p.1.adjustments.length, p.2.length))
      = some (1, 2, 2) ∧ (1 : Nat) ≠ 2 :=
  ⟨by decide, by decide⟩

/-- Witness for C3 (amended): the single-order conjunct applied at a
concrete successful adjustment. -/
theorem adjustment_atomicity_witness :
    ∃ ord, exDb3.orders.find? (fun o => o.id = "o1") = some ord ∧
      exDb3s.orders = exDb3.orders.map (fun o => if o.id = "o1" then
        { o with quantity := 1,
                 original_quantity := some (ord.original_quantity.getD ord.quantity) }
        else o) ∧
      exDb3s.orders.length = exDb3.orders.length ∧
      exDb3s.adjustments = exDb3.adjustments ++
        [⟨ord.group_buy_id, ord.id, "adm", "adm", ord.item_name, ord.buyer_id,
          ord.buyer_username, ord.quantity, 1, 9⟩] ∧
      exDb3s.logs.length = exDb3.logs.length + 1 ∧
      exDb3s.sessions = exDb3.sessions :=
  (adjustment_atomicity exDb3 9).1 "o1" 1 "adm" "adm" exDb3s rfl

/-! ### C5 -/

/-- C5 (amended): a successful `update_items` changes only the session row
(its `items`, `version`, `updated_at`), leaves every order row — hence every
captured `unit_price` — unchanged, and the per-buyer subtotals and both
grand totals are computed from those unchanged captured prices. -/
theorem update_items_snapshot
    (db : DBState) (id : String) (gb : GroupBuy) (items : List (String × Money))
    (ev : Int) (u un : String) (now : Nat) (db' : DBState)
    (hgb : db.sessions id = some gb)
    (h : updateItems db id items ev u un now = .ok db') :
    db'.orders = db.orders ∧
    db'.adjustments = db.adjustments ∧
    (∀ i, i ≠ id → db'.sessions i = db.sessions i) ∧
    db'.sessions id
      = some { gb with items := items, version := gb.version + 1, updated_at := now } ∧
    buyerSubtotals db'.orders = buyerSubtotals db.orders ∧
    subtotalGrandTotal db'.orders = subtotalGrandTotal db.orders ∧
    shoppingGrandTotal db'.orders = shoppingGrandTotal db.orders := by
  rw [updateItems] at h
  simp only [hgb] at h
  split at h
  · injection h with h
    subst h
    refine ⟨rfl, rfl, ?_, ?_, rfl, rfl, rfl⟩
    · intro i hi
      simp [logAction, hi]
    · simp [logAction]
  · exact absurd h (by simp)

/-- Counterexample for C5: after repricing A from 50 to 60, the pre-existing
order still carries `unit_price = 50` and the grand total is 50, but the
shopping-list row displays the **new** menu price 60 and row subtotal 60 —
the shopping-list view does not report the order at its captured price. -/
theorem update_items_snapshot_counterexample :
    updateItems exDb5 "g" [("A", 60)] 1 "u" "u" 7 = .ok exDb5r ∧
    exDb5r.orders.map (·.unit_price) = [50] ∧
    (exDb5r.sessions "g").map (fun gb => shoppingListRows gb exDb5r.orders)
      = some [⟨"A", 1, 60, 60⟩] ∧
    shoppingGrandTotal exDb5r.orders = 50 ∧
    (60 : Money) ≠ 50 := by
  refine ⟨rfl, by decide, ?_, ?_, by norm_num⟩
  · simp only [exDb5r, exDb5, exGb5, updateItems, logAction, Except.toOption,
      Option.getD, shoppingListRows, shoppingTotals, mapAdd, sortBy, insertBy,
      lookupKey, List.foldl, List.find?, List.map, Option.map]
    norm_num
  · simp only [exDb5r, exDb5, exGb5, updateItems, logAction, Except.toOption,
      Option.getD, shoppingGrandTotal, List.map, List.sum, List.foldr]
    norm_num

/-- Witness for C5 (amended) at the concrete repricing of `exDb5`. -/
theorem update_items_snapshot_witness :
    exDb5.sessions "g" = some exGb5 ∧
    (exDb5r.orders = exDb5.orders ∧
     exDb5r.adjustments = exDb5.adjustments ∧
     (∀ i, i ≠ "g" → exDb5r.sessions i = exDb5.sessions i) ∧
     exDb5r.sessions "g"
       = some { exGb5 with
                items := [("A", 60)], version := exGb5.version + 1, updated_at := 7 } ∧
     buyerSubtotals exDb5r.orders = buyerSubtotals exDb5.orders ∧
     subtotalGrandTotal exDb5r.orders = subtotalGrandTotal exDb5.orders ∧
     shoppingGrandTotal exDb5r.orders = shoppingGrandTotal exDb5.orders) :=
  ⟨rfl, update_items_snapshot exDb5 "g" exGb5 [("A", 60)] 1 "u" "u" 7 exDb5r rfl rfl⟩

/-! ### C9 -/

/-- Any single store operation (including the guarded action prelude)
preserves an already-bound `post_id`. -/
theorem applyOp_post_id (db : DBState) (op : StoreOp) (gbId p : String)
    (gb : GroupBuy) (hgb : db.sessions gbId = some gb)
    (hp : gb.post_id = some p) :
    ∃ gb', (applyOp db op).sessions gbId = some gb' ∧ gb'.post_id = some p := by
  cases op with
  | prelude g pid now =>
      simp only [applyOp, actionPrelude]
      cases hs : db.sessions g with
      | none => exact ⟨gb, hgb, hp⟩
      | some gb0 =>
          by_cases hnone : gb0.post_id = none
          · simp only [if_pos hnone, updatePostId, hs]
            by_cases heq : gbId = g
            · subst heq
              rw [hgb] at hs
              injection hs with hs
              rw [← hs] at hnone
              rw [hnone] at hp
              exact absurd hp (by simp)
            · exact ⟨gb, by simp [heq, hgb], hp⟩
          · simp only [if_neg hnone]
            exact ⟨gb, hgb, hp⟩
  | updItems id items ev u un now =>
      simp only [applyOp]
      cases hr : updateItems db id items ev u un now with
      | error e => exact ⟨gb, hgb, hp⟩
      | ok d =>
          rw [updateItems] at hr
          cases hs : db.sessions id with
          | none => simp only [hs] at hr; exact absurd hr (by simp)
          | some gb0 =>
              simp only [hs] at hr
              split at hr
              · injection hr with hr
                subst hr
                by_cases heq : gbId = id
                · subst heq
                  rw [hgb] at hs
                  injection hs with hs
                  subst hs
                  refine ⟨{ gb with
                              items := items, version := gb.version + 1,
                              updated_at := now }, by simp [logAction], hp⟩
                · exact ⟨gb, by simp [logAction, heq, hgb], hp⟩
              · exact absurd hr (by simp)
  | updStatus id st ev u un now =>
      simp only [applyOp]
      cases hr : updateStatus db id st ev u un now with
      | error e => exact ⟨gb, hgb, hp⟩
      | ok d =>
          rw [updateStatus] at hr
          cases hs : db.sessions id with
          | none => simp only [hs] at hr; exact absurd hr (by simp)
          | some gb0 =>
              simp only [hs] at hr
              split at hr
              · injection hr with hr
                subst hr
                by_cases heq : gbId = id
                · subst heq
                  rw [hgb] at hs
                  injection hs with hs
                  subst hs
                  refine ⟨{ gb with
                              status := st, version := gb.version + 1,
                              updated_at := now }, by simp [logAction], hp⟩
                · exact ⟨gb, by simp [logAction, heq, hgb], hp⟩
              · exact absurd hr (by simp)
  | createOrd o now =>
      simp only [applyOp]
      cases hr : createOrder db o now with
      | error e => exact ⟨gb, hgb, hp⟩
      | ok d =>
          rw [createOrder] at hr
          cases hs : db.sessions o.group_buy_id with
          | none => simp only [hs] at hr; exact absurd hr (by simp)
          | some gb0 =>
              simp only [hs] at hr
              split at hr
              · exact absurd hr (by simp)
              · injection hr with hr
                subst hr
                exact ⟨gb, by simp [logAction, hgb], hp⟩
  | delBuyerItem g b i aId aU now =>
      exact ⟨gb, by simp [applyOp, deleteBuyerItemOrders, logAction, hgb], hp⟩
  | delForBuyer g b aId aU now =>
      exact ⟨gb, by simp [applyOp, deleteOrdersForBuyer, logAction, hgb], hp⟩
  | adjSingle oid q aId aU now =>
      simp only [applyOp]
      cases hr : adjustSingleOrder db oid q aId aU now with
      | error e => exact ⟨gb, hgb, hp⟩
      | ok d =>
          obtain ⟨_, _, _, _, _, hsess⟩ :=
            adjustSingleOrder_ok_shape db oid q aId aU now d hr
          exact ⟨gb, by rw [hsess]; exact hgb, hp⟩
  | adjBatch g i adjs aId aU now =>
      simp only [applyOp]
      cases hr : adjustOrderQuantity db g i adjs aId aU now with
      | error e => exact ⟨gb, hgb, hp⟩
      | ok pr =>
          obtain ⟨_, hsess, _, _, _⟩ :=
            adjustOrderQuantity_ok_shape db g i adjs aId aU now pr.1 pr.2 (by rw [hr])
          exact ⟨gb, by rw [hsess]; exact hgb, hp⟩

/-- A bound `post_id` survives any sequence of store operations. -/
theorem applyOps_post_id (ops : List StoreOp) :
    ∀ (db : DBState) (gbId p : String) (gb : GroupBuy),
      db.sessions gbId = some gb → gb.post_id = some p →
      ∃ gb', (applyOps db ops).sessions gbId = some gb' ∧ gb'.post_id = some p := by
  induction ops with
  | nil => intro db gbId p gb hgb hp; exact ⟨gb, hgb, hp⟩
  | cons op rest ih =>
      intro db gbId p gb hgb hp
      obtain ⟨gb1, h1, h2⟩ := applyOp_post_id db op gbId p gb hgb hp
      exact ih (applyOp db op) gbId p gb1 h1 h2

/-- C9: `post_id` is set at most once from null and never cleared or
rewritten — when the session's `post_id` is still null the action prelude
binds it to the incoming action's post id, and once it is set, processing
any further sequence of actions and store operations leaves it unchanged. -/
theorem post_id_one_shot (db : DBState) (gbId pid : String) (now : Nat)
    (gb : GroupBuy) (p : String) (ops : List StoreOp)
    (hgb : db.sessions gbId = some gb) :
    (gb.post_id = none →
       ∃ gb1, (actionPrelude db gbId pid now).sessions gbId = some gb1 ∧
         gb1.post_id = some pid) ∧
    (gb.post_id = some p →
       ∃ gb2, (applyOps db ops).sessions gbId = some gb2 ∧
         gb2.post_id = some p) := by
  constructor
  · intro hnone
    simp only [actionPrelude, hgb, hnone]
    simp only [updatePostId, hgb]
    exact ⟨{ gb with post_id := some pid, updated_at := now }, by simp, rfl⟩
  · intro hp
    exact applyOps_post_id ops db gbId p gb hgb hp

/-- Witness for C9: after a further action prelude and a status update, the
bound `post_id` of `exGb9` is unchanged. -/
theorem post_id_one_shot_witness :
    exDb9.sessions "g" = some exGb9 ∧
    (exGb9.post_id = some "post1" →
       ∃ gb2, (applyOps exDb9
           [.prelude "g" "post2" 3, .updStatus "g" .closed 1 "c" "c" 4]).sessions "g"
         = some gb2 ∧ gb2.post_id = some "post1") :=
  ⟨rfl, (post_id_one_shot exDb9 "g" "post2" 3 exGb9 "post1"
    [.prelude "g" "post2" 3, .updStatus "g" .closed 1 "c" "c" 4] rfl).2⟩

/-! ### C6 -/

theorem setQty_id (tid : String) (q : Int) (v : Option Int) (o : GroupBuyOrder) :
    (if o.id = tid then { o with quantity := q, original_quantity := v } else o).id
      = o.id := by
  split <;> rfl

theorem map_setQty_ids (tid : String) (q : Int) (v : Option Int)
    (l : List GroupBuyOrder) :
    ((l.map fun o =>
        if o.id = tid then { o with quantity := q, original_quantity := v } else o).map
      (·.id)) = l.map (·.id) := by
  induction l with
  | nil => rfl
  | cons o os ih =>
      simp only [List.map_cons, ih]
      rw [setQty_id]

theorem find?_map_setQty (oid tid : String) (q : Int) (v : Option Int)
    (l : List GroupBuyOrder) :
    ((l.map fun o =>
        if o.id = tid then { o with quantity := q, original_quantity := v } else o).find?
      (fun x => x.id = oid))
      = (l.find? fun x => x.id = oid).map
          fun o => if o.id = tid then { o with quantity := q, original_quantity := v } else o := by
  induction l with
  | nil => rfl
  | cons o os ih =>
      simp only [List.map_cons]
      by_cases ho : o.id = oid
      · have hpl : (if o.id = tid then
            ({ o with quantity := q, original_quantity := v } : GroupBuyOrder) else o).id
              = oid := by rw [setQty_id]; exact ho
        rw [List.find?_cons_of_pos _ (by simpa using hpl),
          List.find?_cons_of_pos _ (by simpa using ho)]
        rfl
      · have hpl : ¬ (if o.id = tid then
            ({ o with quantity := q, original_quantity := v } : GroupBuyOrder) else o).id
              = oid := by rw [setQty_id]; exact ho
        rw [List.find?_cons_of_neg _ (by simpa using hpl),
          List.find?_cons_of_neg _ (by simpa using ho), ih]

theorem adjustBatchStep_fold_track (g i aId aU : String)
    (adjs : List (String × Int)) (now : Nat) (oid : String) (q0 : Int) :
    ∀ (l : List GroupBuyOrder) (acc : DBState × List AdjustmentRecord),
      (∀ o2 ∈ l, o2.id = oid → o2.original_quantity.getD o2.quantity = q0) →
      TrackInv oid q0 acc.1.orders →
      TrackInv oid q0
        ((l.foldl (adjustBatchStep g i aId aU adjs now) acc).1.orders) := by
  intro l
  induction l with
  | nil => intro acc _ hacc; exact hacc
  | cons o2 os ih =>
      intro acc hl hacc
      rw [List.foldl_cons]
      refine ih _ (fun o ho hid => hl o (List.mem_cons_of_mem _ ho) hid) ?_
      unfold adjustBatchStep
      cases hlk : lookupKey adjs o2.buyer_username with
      | none => exact hacc
      | some nq =>
          obtain ⟨hnd, o, hfind, hdisj⟩ := hacc
          dsimp only
          constructor
          · rw [map_setQty_ids]; exact hnd
          · rw [find?_map_setQty, hfind]
            by_cases hio : o.id = o2.id
            · have hoid : o.id = oid := by simpa using List.find?_some hfind
              have h2 : o2.id = oid := by rw [← hio]; exact hoid
              have hq0 : o2.original_quantity.getD o2.quantity = q0 :=
                hl o2 (List.mem_cons_self _ _) h2
              refine ⟨_, rfl, Or.inr ?_⟩
              simp only [if_pos hio]
              rw [hq0]
            · refine ⟨_, rfl, ?_⟩
              simp only [if_neg hio]
              exact hdisj

theorem applyAdjust_track (oid : String) (q0 : Int) (db : DBState) (op : AdjustOp)
    (h : TrackInv oid q0 db.orders) : TrackInv oid q0 (applyAdjust db op).orders := by
  obtain ⟨hnd, o, hfind, hdisj⟩ := h
  cases op with
  | single tid q aId aU now =>
      simp only [applyAdjust]
      cases hr : adjustSingleOrder db tid q aId aU now with
      | error e => exact ⟨hnd, o, hfind, hdisj⟩
      | ok d =>
          obtain ⟨ord, hford, horders, _, _, _⟩ :=
            adjustSingleOrder_ok_shape db tid q aId aU now d hr
          constructor
          · rw [horders, map_setQty_ids]; exact hnd
          · rw [horders, find?_map_setQty, hfind]
            by_cases hio : o.id = tid
            · have hoid : o.id = oid := by simpa using List.find?_some hfind
              have htid : tid = oid := by rw [← hio]; exact hoid
              subst htid
              rw [hfind] at hford
              injection hford with hford
              have hog : ord.original_quantity.getD ord.quantity = q0 := by
                rw [hford] at hdisj
                rcases hdisj with ⟨h1, h2⟩ | h1
                · rw [h1, Option.getD_none, h2]
                · rw [h1, Option.getD_some]
              refine ⟨_, rfl, Or.inr ?_⟩
              simp only [if_pos hio]
              rw [hog]
            · refine ⟨_, rfl, ?_⟩
              simp only [if_neg hio]
              exact hdisj
  | batch g i adjs aId aU now =>
      simp only [applyAdjust]
      cases hr : adjustOrderQuantity db g i adjs aId aU now with
      | error e => exact ⟨hnd, o, hfind, hdisj⟩
      | ok pr =>
          obtain ⟨_, _, _, _, horders⟩ :=
            adjustOrderQuantity_ok_shape db g i adjs aId aU now pr.1 pr.2 (by rw [hr])
          rw [horders]
          refine adjustBatchStep_fold_track g i aId aU adjs now oid q0 _ (db, []) ?_
            ⟨hnd, o, hfind, hdisj⟩
          intro o2 ho2 hid2
          have ho2m : o2 ∈ db.orders := (List.mem_filter.mp ho2).1
          have hom : o ∈ db.orders := List.mem_of_find?_eq_some hfind
          have hoid : o.id = oid := by simpa using List.find?_some hfind
          have he : o2 = o :=
            List.inj_on_of_nodup_map hnd ho2m hom (by rw [hid2, hoid])
          subst he
          rcases hdisj with ⟨h1, h2⟩ | h1
          · rw [h1, Option.getD_none, h2]
          · rw [h1, Option.getD_some]

theorem applyAdjusts_track (oid : String) (q0 : Int) (ops : List AdjustOp) :
    ∀ db : DBState, TrackInv oid q0 db.orders →
      TrackInv oid q0 (applyAdjusts db ops).orders := by
  induction ops with
  | nil => intro db h; exact h
  | cons op rest ih =>
      intro db h
      exact ih (applyAdjust db op) (applyAdjust_track oid q0 db op h)

/-- C6: for an order whose `original_quantity` is still unset and whose row
ids are unique, the first single-order adjustment sets `original_quantity`
to the pre-adjustment quantity, and after any sequence of single or batch
adjustments `original_quantity` is either still unset (with the quantity
untouched) or equals the quantity the order had before the first
adjustment — it is never overwritten. -/
theorem original_quantity_preservation
    (db : DBState) (oid : String) (ord : GroupBuyOrder) (ops : List AdjustOp)
    (hnd : (db.orders.map (·.id)).Nodup)
    (hfind : db.orders.find? (fun o => o.id = oid) = some ord)
    (hfresh : ord.original_quantity = none) :
    (∃ ord', (applyAdjusts db ops).orders.find? (fun o => o.id = oid) = some ord' ∧
       (ord'.original_quantity = none ∧ ord'.quantity = ord.quantity ∨
        ord'.original_quantity = some ord.quantity)) ∧
    (∀ q aId aU now db1, adjustSingleOrder db oid q aId aU now = .ok db1 →
       db1.orders.find? (fun o => o.id = oid)
         = some { ord with quantity := q, original_quantity := some ord.quantity }) := by
  constructor
  · obtain ⟨_, o', h1, h2⟩ :=
      applyAdjusts_track oid ord.quantity ops db ⟨hnd, ord, hfind, Or.inl ⟨hfresh, rfl⟩⟩
    exact ⟨o', h1, h2⟩
  · intro q aId aU now db1 h
    obtain ⟨ord2, hford, horders, _, _, _⟩ :=
      adjustSingleOrder_ok_shape db oid q aId aU now db1 h
    rw [hfind] at hford
    injection hford with hford
    subst hford
    rw [horders, find?_map_setQty, hfind]
    have hoid : ord.id = oid := by simpa using List.find?_some hfind
    simp only [Option.map_some', if_pos hoid, hfresh, Option.getD_none]

/-- Witness for C6 at `exDb3`, running a single adjustment followed by a
batch adjustment of the same order. -/
theorem original_quantity_preservation_witness :
    (exDb3.orders.map (·.id)).Nodup ∧
    exDb3.orders.find? (fun o => o.id = "o1") = some exOrd6 ∧
    exOrd6.original_quantity = none ∧
    ((∃ ord', (applyAdjusts exDb3
        [.single "o1" 1 "adm" "adm" 9,
         .batch "g" "A" [("alice", 0)] "adm" "adm" 10]).orders.find?
          (fun o => o.id = "o1") = some ord' ∧
       (ord'.original_quantity = none ∧ ord'.quantity = exOrd6.quantity ∨
        ord'.original_quantity = some exOrd6.quantity)) ∧
     (∀ q aId aU now db1, adjustSingleOrder exDb3 "o1" q aId aU now = .ok db1 →
       db1.orders.find? (fun o => o.id = "o1")
         = some { exOrd6 with quantity := q, original_quantity := some exOrd6.quantity })) :=
  ⟨by decide, by decide, rfl,
   original_quantity_preservation exDb3 "o1" exOrd6
     [.single "o1" 1 "adm" "adm" 9, .batch "g" "A" [("alice", 0)] "adm" "adm" 10]
     (by decide) (by decide) rfl⟩

/-! ### C1 -/

theorem traceLogs_length (id : String) :
    ∀ (seq : List (StoreCall × Int × Nat)) (v : Int),
      (traceLogs id v seq).length = seq.length := by
  intro seq
  induction seq with
  | nil => intro v; rfl
  | cons p rest ih =>
      intro v
      obtain ⟨c, ev, now⟩ := p
      simp only [traceLogs, List.length_cons, ih]

theorem traceLogs_zip (id : String) :
    ∀ (seq : List (StoreCall × Int × Nat)) (v : Int),
      traceLogs id v seq
        = (seq.zip (traceVersions v seq)).map
            (fun p => callLog id p.1.1 p.2 p.1.2.2) := by
  intro seq
  induction seq with
  | nil => intro v; rfl
  | cons p rest ih =>
      intro v
      obtain ⟨c, ev, now⟩ := p
      simp only [traceLogs, traceVersions, List.zip_cons_cons, List.map_cons, ih]

theorem traceVersions_chain {α : Type} (l : List α) :
    ∀ v : Int, List.Chain' (· < ·) (traceVersions v l) := by
  induction l with
  | nil => intro v; simp [traceVersions]
  | cons a rest ih =>
      intro v
      cases rest with
      | nil => simp [traceVersions]
      | cons b rest2 =>
          have h := ih (v + 1)
          simp only [traceVersions] at h ⊢
          exact List.chain'_cons.mpr ⟨by omega, h⟩

/-- Success of one guarded call: the expected version must equal the stored
one, the stored version advances by exactly 1, and one audit entry
recording the pre-call version is appended. -/
theorem applyCall_ok (db : DBState) (id : String) (c : StoreCall) (ev : Int)
    (now : Nat) (db1 : DBState) (gb : GroupBuy)
    (h0 : db.sessions id = some gb) (h : applyCall db id c ev now = .ok db1) :
    ev = gb.version ∧
    (∃ gb1, db1.sessions id = some gb1 ∧ gb1.version = gb.version + 1) ∧
    db1.logs = db.logs ++ [callLog id c gb.version now] := by
  cases c with
  | updItems items u un =>
      simp only [applyCall] at h
      rw [updateItems] at h
      simp only [h0] at h
      split at h
      · rename_i hcond
        injection h with h
        subst h
        obtain ⟨hev, _⟩ := hcond
        subst hev
        refine ⟨rfl, ⟨{ gb with
          items := items, version := gb.version + 1, updated_at := now },
          by simp [logAction], rfl⟩, rfl⟩
      · exact absurd h (by simp)
  | updStatus st u un =>
      simp only [applyCall] at h
      rw [updateStatus] at h
      simp only [h0] at h
      split at h
      · rename_i hev
        injection h with h
        subst h
        subst hev
        refine ⟨rfl, ⟨{ gb with
          status := st, version := gb.version + 1, updated_at := now },
          by simp [logAction], rfl⟩, rfl⟩
      · exact absurd h (by simp)

/-- Spec of a whole successful call sequence: final version is the initial
one plus the number of calls, and the audit log grows by exactly the trace
entries. -/
theorem applyCalls_ok_spec (id : String) :
    ∀ (seq : List (StoreCall × Int × Nat)) (db : DBState) (gb : GroupBuy)
      (db' : DBState),
      db.sessions id = some gb → applyCalls db id seq = .ok db' →
      (∃ gb', db'.sessions id = some gb' ∧
         gb'.version = gb.version + (seq.length : Int)) ∧
      db'.logs = db.logs ++ traceLogs id gb.version seq := by
  intro seq
  induction seq with
  | nil =>
      intro db gb db' h0 h
      injection h with h
      subst h
      exact ⟨⟨gb, h0, by simp⟩, by simp [traceLogs]⟩
  | cons p rest ih =>
      intro db gb db' h0 h
      obtain ⟨c, ev, now⟩ := p
      simp only [applyCalls] at h
      cases hr : applyCall db id c ev now with
      | error e => rw [hr] at h; exact absurd h (by simp)
      | ok db1 =>
          rw [hr] at h
          obtain ⟨hev, ⟨gb1, hs1, hv1⟩, hl1⟩ := applyCall_ok db id c ev now db1 gb h0 hr
          obtain ⟨⟨gb', hs', hv'⟩, hl'⟩ := ih db1 gb1 db' hs1 h
          refine ⟨⟨gb', hs', ?_⟩, ?_⟩
          · rw [hv', hv1]
            simp only [List.length_cons]
            push_cast
            ring
          · rw [hl', hl1, hv1]
            simp only [traceLogs, List.append_assoc, List.singleton_append]

/-- C1: starting at stored version `v₀`, N successful
`update_items`/`update_status` calls leave the session at version `v₀ + N`
and append exactly N audit entries recording the strictly increasing
versions `v₀, v₀+1, …`; each call succeeds only when the supplied
`expected_version` equals the stored version (update_items additionally
requires Active status), a success increments the version by exactly 1 and
refreshes `updated_at`, and a mismatched `expected_version` fails with a
version conflict leaving the stored state unchanged. -/
theorem version_monotonicity
    (db : DBState) (id : String) (gb : GroupBuy)
    (seq : List (StoreCall × Int × Nat)) (db' : DBState)
    (h0 : db.sessions id = some gb)
    (h1 : applyCalls db id seq = .ok db') :
    (∃ gb', db'.sessions id = some gb' ∧
       gb'.version = gb.version + (seq.length : Int)) ∧
    db'.logs = db.logs ++ traceLogs id gb.version seq ∧
    List.Chain' (· < ·) (traceVersions gb.version seq) ∧
    (traceLogs id gb.version seq).length = seq.length ∧
    traceLogs id gb.version seq
      = (seq.zip (traceVersions gb.version seq)).map
          (fun p => callLog id p.1.1 p.2 p.1.2.2) ∧
    (∀ (c : StoreCall) (v : Int) (now : Nat),
       (callLog id c v now).details = (callDetails c v).serialize ∧
       (callDetails c v).hasKey "version" = true ∧
       (callDetails c v).lookup "version" = some (.n v)) ∧
    (∀ items ev u un now d0 db0, updateItems db0 id items ev u un now = .ok d0 →
       ∃ g0, db0.sessions id = some g0 ∧ g0.version = ev ∧
         g0.status = .active ∧
         d0.sessions id
           = some { g0 with items := items, version := ev + 1, updated_at := now }) ∧
    (∀ st ev u un now d0 db0, updateStatus db0 id st ev u un now = .ok d0 →
       ∃ g0, db0.sessions id = some g0 ∧ g0.version = ev ∧
         d0.sessions id
           = some { g0 with status := st, version := ev + 1, updated_at := now }) ∧
    (∀ items ev u un now g0 db0, db0.sessions id = some g0 → g0.version ≠ ev →
       updateItems db0 id items ev u un now = .error .versionConflict ∧
       applyOp db0 (.updItems id items ev u un now) = db0) ∧
    (∀ st ev u un now g0 db0, db0.sessions id = some g0 → g0.version ≠ ev →
       updateStatus db0 id st ev u un now = .error .versionConflict ∧
       applyOp db0 (.updStatus id st ev u un now) = db0) := by
  obtain ⟨hfin, hlogs⟩ := applyCalls_ok_spec id seq db gb db' h0 h1
  refine ⟨hfin, hlogs, traceVersions_chain seq gb.version,
    traceLogs_length id seq gb.version, traceLogs_zip id seq gb.version,
    ?_, ?_, ?_, ?_, ?_⟩
  · intro c v now
    cases c <;> exact ⟨rfl, rfl, rfl⟩
  · intro items ev u un now d0 db0 h
    rw [updateItems] at h
    cases hs : db0.sessions id with
    | none => simp only [hs] at h; exact absurd h (by simp)
    | some g0 =>
        simp only [hs] at h
        split at h
        · rename_i hcond
          injection h with h
          subst h
          exact ⟨g0, rfl, hcond.1, hcond.2, by simp [logAction, hcond.1]⟩
        · exact absurd h (by simp)
  · intro st ev u un now d0 db0 h
    rw [updateStatus] at h
    cases hs : db0.sessions id with
    | none => simp only [hs] at h; exact absurd h (by simp)
    | some g0 =>
        simp only [hs] at h
        split at h
        · rename_i hev
          injection h with h
          subst h
          exact ⟨g0, rfl, hev, by simp [logAction, hev]⟩
        · exact absurd h (by simp)
  · intro items ev u un now g0 db0 hs hne
    have he : updateItems db0 id items ev u un now = .error .versionConflict := by
      simp [updateItems, hs, hne]
    exact ⟨he, by simp [applyOp, he]⟩
  · intro st ev u un now g0 db0 hs hne
    have he : updateStatus db0 id st ev u un now = .error .versionConflict := by
      simp [updateStatus, hs, hne]
    exact ⟨he, by simp [applyOp, he]⟩

/-- Witness for C1: both calls of `exSeq1` succeed against `exDb5`
(version 1), the final version is 3, and the audit trace records versions
1 then 2, strictly increasing. -/
theorem version_monotonicity_witness :
    exDb5.sessions "g" = some exGb5 ∧
    applyCalls exDb5 "g" exSeq1 = .ok exDb1r ∧
    (∃ gb', exDb1r.sessions "g" = some gb' ∧
       gb'.version = exGb5.version + (exSeq1.length : Int)) ∧
    exDb1r.logs = exDb5.logs ++ traceLogs "g" exGb5.version exSeq1 ∧
    List.Chain' (· < ·) (traceVersions exGb5.version exSeq1) := by
  have h := version_monotonicity exDb5 "g" exGb5 exSeq1 exDb1r rfl rfl
  exact ⟨rfl, rfl, h.1, h.2.1, h.2.2.1⟩

end GroupBuyBot
